import Mathlib

/-!
Verification of the orchestration engine in `src/python/vmaf/core/executor.py`
(class `Executor` and its helpers), shallowly embedded in Lean.

Embedding conventions:
* Python strings are Lean `String`s; where character-level processing is
  required (splitting, replacement) we work on `String.data : List Char`.
* Python values stored in `optional_dict` are modelled by `PyVal`; a value
  carries its `str(...)` rendering, which is all the source ever consumes.
* Raising an exception (AssertionError, RuntimeError, ...) is modelled by
  `Except Err` / `Option` results.
* Filesystem and subprocess effects are recorded as an `Event` trace;
  external outcomes (cache contents, file existence, process exit) are
  supplied by an `Env` record.
-/

/-- A Python value as seen by `Executor.get_normalized_string_from_dict`:
either a non-callable value (identified by its `str` rendering used in
`'{k}_{v}'.format`), the value `None`, or a callable (identified by its
`str(v)` rendering, e.g. `<built-in function sorted>`). -/
inductive PyVal where
  | plain (render : String)
  | pyNone
  | callable (render : String)
deriving DecidableEq, Repr

/-- Python `s.split(sep)` for a one-character separator, on char lists
(`''.split(' ') = ['']`, `'a '.split(' ') = ['a', '']`). -/
def pySplit (sep : Char) : List Char → List (List Char)
  | [] => [[]]
  | c :: rest =>
    let r := pySplit sep rest
    if c = sep then [] :: r
    else
      match r with
      | [] => [[c]]
      | t :: ts => (c :: t) :: ts

/-- The loop at the end of `_slugify`: scan the space-separated tokens of the
trimmed rendering; at the first token equal to `"function"` return the next
token (`assert idx < len(l) - 1` fails, i.e. `none`, when it is the last). -/
def tokenAfterFunction : List (List Char) → Option (List Char)
  | [] => none
  | t :: ts => if t = "function".data then ts.head? else tokenAfterFunction ts

/-- `Executor.get_normalized_string_from_dict`'s inner `_slugify` on a
callable value: `str(v)` must be of the form `<...>`, and among its
space-separated tokens `"function"` must occur followed by a name, which is
returned.  `none` models an `assert` failure (lines 108, 111, 114). -/
def slugifyCallable (s : List Char) : Option (List Char) :=
  match s with
  | [] => none
  | c :: rest =>
    if c = '<' ∧ (c :: rest).getLast? = some '>' then
      tokenAfterFunction (pySplit ' ' (((c :: rest).drop 1).dropLast))
    else none

/-- `_slugify` (executor.py lines 105-117): callables are reduced to their
declared name, `None` renders as `None`, anything else renders as itself. -/
def slugify : PyVal → Option (List Char)
  | .plain r => some r.data
  | .pyNone => some "None".data
  | .callable r => slugifyCallable r.data

/-- Whether a token list contains the token `"function"` followed by at
least one further token (the name).  This is the rendering shape the claim
describes, written independently of `_slugify`'s first-occurrence scan. -/
def hasFnTok : List (List Char) → Bool
  | [] => false
  | [_] => false
  | t :: u :: ts => (t == "function".data) || hasFnTok (u :: ts)

/-- Whether a callable's `str` rendering is of the form
`<... function <name> ...>`: bracketed, with a `"function"` token followed
by a name among the space-separated tokens of the bracket's inside. -/
def hasFunctionNameToken (r : String) : Bool :=
  match r.data with
  | [] => false
  | c :: rest =>
    (c == '<') && ((c :: rest).getLast? == some '>')
      && hasFnTok (pySplit ' ' (((c :: rest).drop 1).dropLast))

/-- Lexicographic comparison of char lists by code point, the order Python's
`sorted` uses on `str` keys. -/
def lexLE : List Char → List Char → Bool
  | [], _ => true
  | _ :: _, [] => false
  | a :: as, b :: bs => if a = b then lexLE as bs else decide (a < b)

/-- Key order used by Python's `sorted(d.keys())`: compare entries by key. -/
def keyLE (a b : String × PyVal) : Prop := lexLE a.1.data b.1.data = true

instance : DecidableRel keyLE :=
  fun a b => inferInstanceAs (Decidable (lexLE a.1.data b.1.data = true))

/-- `keyLE` together with key distinctness, used to show the sorted form of a
dict with no duplicate keys is unique. -/
def keyLT (a b : String × PyVal) : Prop := keyLE a b ∧ a.1 ≠ b.1

/-- `Executor.get_normalized_string_from_dict` (lines 96-118): sort the
entries by key, render each as `key_value` with `_slugify` applied to the
value, and join with `'_'`.  A Python dict is embedded as an association
list with no duplicate keys; `none` models an `assert` failure inside
`_slugify`. -/
def get_normalized_string_from_dict (d : List (String × PyVal)) : Option (List Char) :=
  ((List.insertionSort keyLE d).mapM
      (fun kv => (slugify kv.2).map (fun v => kv.1.data ++ '_' :: v))).map
    (List.intercalate ['_'])

/-- `str.replace(c, '_')` for a single character, as used on `executor_id_`. -/
def replaceChar (c : Char) (s : List Char) : List Char :=
  s.map (fun ch => if ch = c then '_' else ch)

/-- Modelled from the spec: `TypeVersionEnabled.get_type_version_string`
(the mixin `vmaf/core/mixin.py` is not under `src/`); spec section 4.1 gives
`executor_id = "{type}_{version}"` before the optional-parameters suffix. -/
def type_version_string (type_name version : String) : String :=
  type_name ++ "_" ++ version

/-- `Executor.executor_id` (lines 120-131): the type-version string, plus,
when `optional_dict` is present and non-empty, `'_'` and the normalized
dict string, with every quote and space of the whole id replaced by `'_'`.
`none` models an `assert` failure inside `get_normalized_string_from_dict`. -/
def executor_id (tv : String) (optional_dict : Option (List (String × PyVal))) :
    Option String :=
  match optional_dict with
  | none => some tv
  | some d =>
    if 0 < d.length then
      (get_normalized_string_from_dict d).map
        (fun n => ⟨replaceChar ' ' (replaceChar '\'' (tv.data ++ '_' :: n))⟩)
    else some tv

/-- Modelled from the spec: `TypeVersionEnabled.get_cozy_type_version_string`
(the mixin is not under `src/`).  The call site's comment (executor.py line
298, "add runner type and version") fixes it as a rendering of the type and
version only; the concrete rendering is immaterial to the theorems below,
which either quantify over it or only use that it ignores `optional_dict`. -/
def get_cozy_type_version_string (type_name version : String) : String :=
  type_name ++ "_" ++ version

/-- `Executor._prepare_log_file` (lines 291-301): the created log file's
content, `"{type_version_str}\n\n"` with the cozy type-version string. -/
def prepare_log_file_content (cozy_type_version_str : String) : String :=
  cozy_type_version_str ++ "\n\n"

/-- First line of a file's content: characters before the first newline. -/
def firstLineOf (s : String) : String :=
  ⟨s.data.takeWhile (fun ch => ch ≠ '\n')⟩

/-- The typed score payload of a `Result` is opaque to the orchestration
engine; a bare tag stands in for it. -/
structure Result where
  payload : Nat
deriving DecidableEq, Repr

/-- Errors raised by the embedded code.  `assertionError` models a failing
Python `assert`; `resourceTimeout` models the `RuntimeError` raised by
`_wait_for_workfiles` / `_wait_for_procfiles` when the poll budget is
exhausted (the spec's `ResourceTimeoutError`); `externalProcess` models a
nonzero exit of the transcoder launched by `run_process`;
`missingDependency` models `VmafExternalConfig.get_and_assert_ffmpeg`
failing; `computeError` / `parseError` are raised by the plugin's
`_generate_result` / `_read_result`. -/
inductive Err where
  | assertionError
  | missingDependency
  | resourceTimeout
  | externalProcess
  | computeError
  | parseError
deriving DecidableEq, Repr

/-- An `Asset` as consumed by `Executor` (the class itself lives in
`vmaf/core/asset.py`, outside `src/`; the fields below are exactly the
accessors the executor reads, with `*_in_dict` recording key presence in
`asset_dict` and `filter_cmds key is_ref` standing for
`asset.get_filter_cmd(key, 'ref'/'dis')`). -/
structure Asset where
  ref_path : String
  dis_path : String
  workdir : String
  /-- The workfile path used when the source is not taken directly. -/
  ref_workfile_path : String
  dis_workfile_path : String
  ref_procfile_path : String
  dis_procfile_path : String
  quality_width_height : Option (Nat × Nat)
  ref_width_height : Option (Nat × Nat)
  dis_width_height : Option (Nat × Nat)
  ref_yuv_type : String
  dis_yuv_type : String
  /-- `asset_dict['workfile_yuv_type']` when the key is present. -/
  workfile_yuv_type_override : Option String
  quality_width_in_dict : Bool
  quality_height_in_dict : Bool
  ref_start_end_frame : Option (Nat × Nat)
  dis_start_end_frame : Option (Nat × Nat)
  filter_cmds : String → Bool → Option String
  ref_proc_callback_present : Bool
  dis_proc_callback_present : Bool
  /-- `str(asset)`, the canonical string form used for locks and hashing. -/
  str_form : String

/-- Modelled from the spec: `Asset.ref_crop_cmd` (asset.py is not under
`src/`); per section 3 the asset carries a per-stream crop/pad/... filter
list, so the accessor reads the `'crop'` entry for the reference stream. -/
def Asset.ref_crop_cmd (a : Asset) : Option String := a.filter_cmds "crop" true

/-- Modelled from the spec: `Asset.dis_crop_cmd`, see `Asset.ref_crop_cmd`. -/
def Asset.dis_crop_cmd (a : Asset) : Option String := a.filter_cmds "crop" false

/-- Modelled from the spec: `Asset.ref_pad_cmd`, see `Asset.ref_crop_cmd`. -/
def Asset.ref_pad_cmd (a : Asset) : Option String := a.filter_cmds "pad" true

/-- Modelled from the spec: `Asset.dis_pad_cmd`, see `Asset.ref_crop_cmd`. -/
def Asset.dis_pad_cmd (a : Asset) : Option String := a.filter_cmds "pad" false

/-- Modelled from the spec: `Asset.workfile_yuv_type` (asset.py is not under
`src/`); the executor reads it only under a `'workfile_yuv_type' in
asset_dict` guard, where it is the override value ("optional workfile format
override", spec section 3); otherwise a format "set at a higher level". -/
def Asset.workfile_yuv_type (a : Asset) : String :=
  a.workfile_yuv_type_override.getD "yuv420p"

/-- Modelled from the spec: `Asset.ORDERED_FILTER_LIST` (asset.py is not
under `src/`); sections 3 and 4.3 describe the configured filters as a
"crop/pad/scale/other ordered filter list" in "a fixed, documented order". -/
def ORDERED_FILTER_LIST : List String := ["crop", "pad", "scale"]

/-- The two once-set decision flags stored on the asset (initially false,
set by `_set_asset_use_path_as_workpath` and
`_set_asset_use_workpath_as_procpath`). -/
structure Flags where
  use_path_as_workpath : Bool
  use_workpath_as_procpath : Bool
deriving DecidableEq, Repr

/-- Modelled from the spec: `Asset.ref_workfile_path`'s dependence on the
decision flag (asset.py is not under `src/`); per spec section 4.3, when the
flag is set "downstream stages read the upstream path directly". -/
def eff_ref_workfile_path (a : Asset) (flags : Flags) : String :=
  if flags.use_path_as_workpath then a.ref_path else a.ref_workfile_path

/-- Modelled from the spec: `Asset.dis_workfile_path`'s dependence on the
decision flag, see `eff_ref_workfile_path`. -/
def eff_dis_workfile_path (a : Asset) (flags : Flags) : String :=
  if flags.use_path_as_workpath then a.dis_path else a.dis_workfile_path

/-- Observable actions of `_run_on_asset`, in program order.  File-system
creations at stage target paths are `mkfifoWorkfile`/`mkfifoProcfile`
(`os.mkfifo`), `ffmpegWrite` (the transcoder materialising the workfile) and
`procWrite` (`YuvWriter` materialising the procfile); removals are
`removeWorkfile`/`removeProcfile` (`os.remove` if the path exists). -/
inductive Event where
  | cacheLoad
  | assertPaths
  | setUsePathAsWorkpath
  | setUseWorkpathAsProcpath
  | removeWorkfile (is_ref : Bool)
  | customCloseWorkfile (is_ref : Bool)
  | removeProcfile (is_ref : Bool)
  | makeParentDirs
  | mkfifoWorkfile (is_ref : Bool)
  | ffmpegWrite (is_ref : Bool)
  | customOpenWorkfile (is_ref : Bool)
  | mkfifoProcfile (is_ref : Bool)
  | procWrite (is_ref : Bool)
  | pollWorkfiles
  | pollProcfiles
  | prepareLogFile
  | generateResult
  | readResult
  | cacheSave
  | saveWorkfileArtifact (is_ref : Bool)
  | removeLog
  | rmdirWorkdir
deriving DecidableEq, Repr

/-- Executor configuration fixed at construction (`__init__`, lines 59-91). -/
structure ExecCfg where
  type_name : String
  version : String
  optional_dict : Option (List (String × PyVal))
  fifo_mode : Bool
  delete_workdir : Bool
  has_result_store : Bool
  save_workfiles : Bool

/-- External world surrounding one `_run_on_asset` call: the result store's
answer, path existence, the transcoder's availability and exit status, pipe
appearance at each poll iteration, the plugin's outcomes, and the
(override-able, identity by default) `_post_process_result`. -/
structure Env where
  cached : Option Result
  pathsExist : Bool
  ffmpegAvailable : Bool
  ffmpegOk : Bool
  workfileAppears : Nat → Bool
  procfileAppears : Nat → Bool
  generateOutcome : Option Err
  readOutcome : Except Err Result
  post : Result → Result

/-- `'key' in optional_dict and optional_dict['key'] is not None`, the guard
used for the `_open_workfile_method` / `_close_workfile_method` overrides
(lines 521-523, 704-707). -/
def hasMethodOverride (od : Option (List (String × PyVal))) (key : String) : Bool :=
  match od with
  | none => false
  | some d =>
    match d.lookup key with
    | none => false
    | some v => if v = PyVal.pyNone then false else true

/-- Sequence effectful unit steps: run each in order, keeping the
accumulated trace, and stop at the first raised error. -/
def stepSeq : List (List Event × Option Err) → List Event × Option Err
  | [] => ([], none)
  | s :: rest =>
    match s with
    | (t, some e) => (t, some e)
    | (t, none) =>
      let (t2, r) := stepSeq rest
      (t ++ t2, r)

/-- `Executor._need_ffmpeg` (lines 207-224). -/
def need_ffmpeg (fl : List String) (a : Asset) : Bool :=
  ((a.quality_width_height != a.ref_width_height)
    || (a.quality_width_height != a.dis_width_height)
    || (a.ref_yuv_type == "notyuv") || (a.dis_yuv_type == "notyuv")
    || a.ref_start_end_frame.isSome || a.dis_start_end_frame.isSome
    || (a.workfile_yuv_type_override.isSome
        && ((a.workfile_yuv_type != a.ref_yuv_type)
            || (a.workfile_yuv_type != a.dis_yuv_type))))
  || fl.any (fun key => (a.filter_cmds key true).isSome || (a.filter_cmds key false).isSome)

/-- `Executor._set_asset_use_path_as_workpath` (lines 484-489). -/
def set_asset_use_path_as_workpath (fl : List String) (a : Asset) (flags : Flags) :
    Flags × List Event :=
  if need_ffmpeg fl a then (flags, [])
  else ({ flags with use_path_as_workpath := true }, [Event.setUsePathAsWorkpath])

/-- `Executor._set_asset_use_workpath_as_procpath` (lines 491-494). -/
def set_asset_use_workpath_as_procpath (a : Asset) (flags : Flags) :
    Flags × List Event :=
  if a.ref_proc_callback_present = false ∧ a.dis_proc_callback_present = false then
    ({ flags with use_workpath_as_procpath := true }, [Event.setUseWorkpathAsProcpath])
  else (flags, [])

/-- `Executor._assert_an_asset` (lines 226-248): compute geometry must be
known; ffmpeg must be resolvable when needed; ref/dis raw formats must agree
unless one is `notyuv` or a workfile format override is present; a
configured crop or pad requires `quality_width`/`quality_height` to be
explicitly in `asset_dict`. -/
def assert_an_asset (ffmpegAvailable : Bool) (fl : List String) (a : Asset) :
    Except Err Unit :=
  if a.quality_width_height.isSome = false then .error .assertionError
  else if need_ffmpeg fl a && !ffmpegAvailable then .error .missingDependency
  else if !((a.ref_yuv_type == "notyuv") || (a.dis_yuv_type == "notyuv")
      || (a.ref_yuv_type == a.dis_yuv_type) || a.workfile_yuv_type_override.isSome) then
    .error .assertionError
  else if (a.ref_crop_cmd.isSome || a.dis_crop_cmd.isSome)
      && !(a.quality_width_in_dict && a.quality_height_in_dict) then
    .error .assertionError
  else if (a.ref_pad_cmd.isSome || a.dis_pad_cmd.isSome)
      && !(a.quality_width_in_dict && a.quality_height_in_dict) then
    .error .assertionError
  else .ok ()

/-- `Executor._wait_for_workfiles` (lines 273-280): up to 10 existence
checks separated by fixed sleeps; if none succeeds, raise (the spec's
resource-timeout failure).  `env.workfileAppears i` is whether both
`ref_workfile_path` and `dis_workfile_path` exist at check `i`. -/
def wait_for_workfiles (env : Env) : List Event × Option Err :=
  if (List.range 10).any env.workfileAppears then ([Event.pollWorkfiles], none)
  else ([Event.pollWorkfiles], some Err.resourceTimeout)

/-- `Executor._wait_for_procfiles` (lines 282-289), as `wait_for_workfiles`. -/
def wait_for_procfiles (env : Env) : List Event × Option Err :=
  if (List.range 10).any env.procfileAppears then ([Event.pollProcfiles], none)
  else ([Event.pollProcfiles], some Err.resourceTimeout)

/-- `Executor._open_ref_workfile` / `_open_dis_workfile` feeding the static
`_open_workfile` (lines 508-585), for one stream: dispatch to the
`_open_workfile_method` override if configured; otherwise assert the flag is
unset and the paths differ, `mkfifo` in fifo mode, resolve ffmpeg, and run
the transcode command writing the workfile. -/
def open_stream_workfile (cfg : ExecCfg) (env : Env) (a : Asset) (flags : Flags)
    (is_ref : Bool) (fifo : Bool) : List Event × Option Err :=
  if hasMethodOverride cfg.optional_dict "_open_workfile_method" then
    ([Event.customOpenWorkfile is_ref], none)
  else
    let path := if is_ref then a.ref_path else a.dis_path
    let workfile_path := if is_ref then a.ref_workfile_path else a.dis_workfile_path
    if flags.use_path_as_workpath = false ∧ path ≠ workfile_path then
      let fifoEv := if fifo then [Event.mkfifoWorkfile is_ref] else []
      if env.ffmpegAvailable = false then (fifoEv, some Err.missingDependency)
      else if env.ffmpegOk then (fifoEv ++ [Event.ffmpegWrite is_ref], none)
      else (fifoEv, some Err.externalProcess)
    else ([], some Err.assertionError)

/-- `Executor._open_workfiles` (lines 435-437). -/
def open_workfiles (cfg : ExecCfg) (env : Env) (a : Asset) (flags : Flags) :
    List Event × Option Err :=
  stepSeq [open_stream_workfile cfg env a flags true false,
           open_stream_workfile cfg env a flags false false]

/-- `Executor._open_workfiles_in_fifo_mode` (lines 439-446): the two stream
openers run in spawned producer processes (their traces are recorded at the
spawn point and their failures stay in the child), then the parent polls for
the pipes. -/
def open_workfiles_in_fifo_mode (cfg : ExecCfg) (env : Env) (a : Asset)
    (flags : Flags) : List Event × Option Err :=
  let refT := (open_stream_workfile cfg env a flags true true).1
  let disT := (open_stream_workfile cfg env a flags false true).1
  let (pt, pe) := wait_for_workfiles env
  (refT ++ disT ++ pt, pe)

/-- `Executor._open_ref_procfile` / `_open_dis_procfile` (lines 589-635) for
one stream: assert the flag is unset and the paths differ, `mkfifo` in fifo
mode, then pump frames from the workfile through the per-sample callback
into the procfile until end-of-stream (`procWrite`). -/
def open_stream_procfile (a : Asset) (flags : Flags) (is_ref : Bool) (fifo : Bool) :
    List Event × Option Err :=
  let workfile_path := if is_ref then a.ref_workfile_path else a.dis_workfile_path
  let procfile_path := if is_ref then a.ref_procfile_path else a.dis_procfile_path
  if flags.use_workpath_as_procpath = false ∧ workfile_path ≠ procfile_path then
    ((if fifo then [Event.mkfifoProcfile is_ref] else []) ++ [Event.procWrite is_ref], none)
  else ([], some Err.assertionError)

/-- `Executor._open_procfiles` (lines 448-450). -/
def open_procfiles (a : Asset) (flags : Flags) : List Event × Option Err :=
  stepSeq [open_stream_procfile a flags true false,
           open_stream_procfile a flags false false]

/-- `Executor._open_procfiles_in_fifo_mode` (lines 452-459), as
`open_workfiles_in_fifo_mode`. -/
def open_procfiles_in_fifo_mode (env : Env) (a : Asset) (flags : Flags) :
    List Event × Option Err :=
  let refT := (open_stream_procfile a flags true true).1
  let disT := (open_stream_procfile a flags false true).1
  let (pt, pe) := wait_for_procfiles env
  (refT ++ disT ++ pt, pe)

/-- `Executor._close_ref_workfile` / `_close_dis_workfile` feeding the static
`_close_workfile` (lines 698-727) for one stream: dispatch to the
`_close_workfile_method` override if configured; otherwise assert the flag
is unset and the paths differ, then remove the workfile if it exists. -/
def close_stream_workfile (cfg : ExecCfg) (a : Asset) (flags : Flags) (is_ref : Bool) :
    List Event × Option Err :=
  if hasMethodOverride cfg.optional_dict "_close_workfile_method" then
    ([Event.customCloseWorkfile is_ref], none)
  else
    let path := if is_ref then a.ref_path else a.dis_path
    let workfile_path := if is_ref then a.ref_workfile_path else a.dis_workfile_path
    if flags.use_path_as_workpath = false ∧ path ≠ workfile_path then
      ([Event.removeWorkfile is_ref], none)
    else ([], some Err.assertionError)

/-- `Executor._close_workfiles` (lines 461-463). -/
def close_workfiles (cfg : ExecCfg) (a : Asset) (flags : Flags) :
    List Event × Option Err :=
  stepSeq [close_stream_workfile cfg a flags true,
           close_stream_workfile cfg a flags false]

/-- `Executor._close_ref_procfile` / `_close_dis_procfile` (lines 729-745)
for one stream: assert the flag is unset and the paths differ, then remove
the procfile if it exists. -/
def close_stream_procfile (a : Asset) (flags : Flags) (is_ref : Bool) :
    List Event × Option Err :=
  let workfile_path := if is_ref then a.ref_workfile_path else a.dis_workfile_path
  let procfile_path := if is_ref then a.ref_procfile_path else a.dis_procfile_path
  if flags.use_workpath_as_procpath = false ∧ workfile_path ≠ procfile_path then
    ([Event.removeProcfile is_ref], none)
  else ([], some Err.assertionError)

/-- `Executor._close_procfiles` (lines 465-468). -/
def close_procfiles (a : Asset) (flags : Flags) : List Event × Option Err :=
  stepSeq [close_stream_procfile a flags true,
           close_stream_procfile a flags false]

/-- The cache-miss steps of `_run_on_asset` after `_assert_paths` and the
two flag decisions (lines 339-384), in program order: emit the flag-set
events, remove stale workfiles, remove stale procfiles ("do early here to
avoid race condition when ref path and dis path have some overlap"), create
the log parent dir, open the workfiles, open the procfiles, prepare the log
file, and run `_generate_result`. -/
def miss_steps (cfg : ExecCfg) (env : Env) (a : Asset)
    (flags : Flags) (t1 t2 : List Event) : List (List Event × Option Err) :=
  let closeWork :=
    if flags.use_path_as_workpath then ([], none) else close_workfiles cfg a flags
  let closeProc :=
    if flags.use_workpath_as_procpath then ([], none) else close_procfiles a flags
  let openWork :=
    if flags.use_path_as_workpath then ([], none)
    else if cfg.fifo_mode then open_workfiles_in_fifo_mode cfg env a flags
    else open_workfiles cfg env a flags
  let openProc :=
    if flags.use_workpath_as_procpath then ([], none)
    else if cfg.fifo_mode then open_procfiles_in_fifo_mode env a flags
    else open_procfiles a flags
  [(t1, none),
   (t2, none),
   closeWork,
   closeProc,
   ([Event.makeParentDirs], none),
   openWork,
   openProc,
   ([Event.prepareLogFile], none),
   ([Event.generateResult], env.generateOutcome)]

/-- The cleanup steps of `_run_on_asset` after a successful read and save
(lines 397-429): remove the stage files whose decision flag is unset, then
the log file and (tolerating "directory not empty") the workdir. -/
def cleanup_steps (cfg : ExecCfg) (a : Asset) (flags : Flags) :
    List (List Event × Option Err) :=
  [(if cfg.delete_workdir then
      (if flags.use_path_as_workpath then ([], none) else close_workfiles cfg a flags)
    else ([], none)),
   (if cfg.delete_workdir then
      (if flags.use_workpath_as_procpath then ([], none) else close_procfiles a flags)
    else ([], none)),
   (if cfg.delete_workdir then ([Event.removeLog, Event.rmdirWorkdir], none)
    else ([], none))]

/-- `Executor._run_on_asset` (lines 309-433), the per-asset state machine:
load from the result store and short-circuit on a hit; otherwise assert the
source paths, decide the two flags, run the `miss_steps`, delegate to
`_read_result`, save to the store, run the `cleanup_steps`, and post-process
the result.  Returns the event trace, the decision flags as left on the
asset, and the result or first raised error. -/
def run_on_asset (fl : List String) (cfg : ExecCfg) (env : Env) (a : Asset) :
    List Event × Flags × Except Err Result :=
  let loadT : List Event := if cfg.has_result_store then [Event.cacheLoad] else []
  let cached : Option Result := if cfg.has_result_store then env.cached else none
  match cached with
  | some r => (loadT, ⟨false, false⟩, Except.ok (env.post r))
  | none =>
    if env.pathsExist = false then
      (loadT ++ [Event.assertPaths], ⟨false, false⟩, Except.error Err.assertionError)
    else
      let (flags1, t1) := set_asset_use_path_as_workpath fl a ⟨false, false⟩
      let (flags, t2) := set_asset_use_workpath_as_procpath a flags1
      let (t, e) := stepSeq (miss_steps cfg env a flags t1 t2)
      match e with
      | some err => (loadT ++ Event.assertPaths :: t, flags, Except.error err)
      | none =>
        match env.readOutcome with
        | Except.error err =>
          (loadT ++ Event.assertPaths :: t ++ [Event.readResult], flags, Except.error err)
        | Except.ok result =>
          let saveT : List Event :=
            if cfg.has_result_store then
              Event.cacheSave ::
                (if cfg.save_workfiles then
                  [Event.saveWorkfileArtifact true, Event.saveWorkfileArtifact false]
                 else [])
            else []
          let (ct, ce) := stepSeq (cleanup_steps cfg a flags)
          match ce with
          | some err =>
            (loadT ++ Event.assertPaths :: t ++ [Event.readResult] ++ saveT ++ ct,
             flags, Except.error err)
          | none =>
            (loadT ++ Event.assertPaths :: t ++ [Event.readResult] ++ saveT ++ ct,
             flags, Except.ok (env.post result))

/-- The sequential branch of `Executor.run` (line 181,
`self.results = list(map(self._run_on_asset, self.assets))`): process assets
in order; an exception raised on one asset propagates at once, so later
assets are not reached and no results list is assigned.  The first component
lists the assets on which `_run_on_asset` was actually invoked. -/
def run_sequential (f : Asset → List Event × Flags × Except Err Result) :
    List Asset → List Asset × Except Err (List Result)
  | [] => ([], Except.ok [])
  | a :: rest =>
    match f a with
    | (_, _, Except.error e) => ([a], Except.error e)
    | (_, _, Except.ok r) =>
      let (p, res) := run_sequential f rest
      (a :: p,
       match res with
       | Except.error e => Except.error e
       | Except.ok rs => Except.ok (r :: rs))

/-- The lock registry built by the parallel branch of `Executor.run`
(lines 156-164): scan `str(asset)` forms in order and give each unseen form
a fresh `multiprocessing.Lock()` (identified here by an allocation index). -/
def build_map_asset_lock (strs : List String) : List (String × Nat) :=
  strs.foldl
    (fun m s => if (m.lookup s).isSome then m else m ++ [(s, m.length)]) []

/-- `locks.append(map_asset_lock[asset_str])` for every asset, in order:
the lock instance associated to each asset of the `run` call. -/
def assign_locks (strs : List String) : List (Option Nat) :=
  let m := build_map_asset_lock strs
  strs.map (fun s => m.lookup s)

/-- Events that create, remove, open or close a workfile at its target
path (including the dispatch to a configured custom open/close method). -/
def isWorkfileStageEvent : Event → Bool
  | .removeWorkfile _ => true
  | .customCloseWorkfile _ => true
  | .mkfifoWorkfile _ => true
  | .ffmpegWrite _ => true
  | .customOpenWorkfile _ => true
  | _ => false

/-- Events that create a file or pipe at a stage's target path (`os.mkfifo`,
the transcoder writing the workfile, `YuvWriter` writing the procfile, or a
custom open method). -/
def isCreationEvent : Event → Bool
  | .mkfifoWorkfile _ => true
  | .ffmpegWrite _ => true
  | .customOpenWorkfile _ => true
  | .mkfifoProcfile _ => true
  | .procWrite _ => true
  | _ => false

/-! Concrete instances used to evaluate the model on closed inputs. -/

/-- An asset with no configured filters. -/
def noFilters : String → Bool → Option String := fun _ _ => none

/-- A reference-stream `scale` filter and nothing else. -/
def scaleOnly : String → Bool → Option String :=
  fun key is_ref => if key = "scale" ∧ is_ref = true then some "4:4" else none

/-- A raw 4x4 asset computed at its native geometry: `_need_ffmpeg` is
false and no per-sample callbacks are configured. -/
def asset0 : Asset :=
  { ref_path := "ref.yuv", dis_path := "dis.yuv", workdir := "wd",
    ref_workfile_path := "wd/ref_wf", dis_workfile_path := "wd/dis_wf",
    ref_procfile_path := "wd/ref_pf", dis_procfile_path := "wd/dis_pf",
    quality_width_height := some (4, 4), ref_width_height := some (4, 4),
    dis_width_height := some (4, 4),
    ref_yuv_type := "yuv420p", dis_yuv_type := "yuv420p",
    workfile_yuv_type_override := none,
    quality_width_in_dict := false, quality_height_in_dict := false,
    ref_start_end_frame := none, dis_start_end_frame := none,
    filter_cmds := noFilters,
    ref_proc_callback_present := false, dis_proc_callback_present := false,
    str_form := "asset0" }

/-- As `asset0` but computed at 2x2, so `_need_ffmpeg` is true. -/
def assetNeed : Asset :=
  { asset0 with quality_width_height := some (2, 2), str_form := "assetNeed" }

/-- As `assetNeed` but with per-sample callbacks on both streams. -/
def assetProc : Asset :=
  { assetNeed with ref_proc_callback_present := true,
                   dis_proc_callback_present := true, str_form := "assetProc" }

/-- As `asset0` but with a `scale` filter configured on the reference
stream and `quality_width`/`quality_height` not explicitly in `asset_dict`. -/
def assetScale : Asset :=
  { asset0 with filter_cmds := scaleOnly, str_form := "assetScale" }

/-- As `asset0`; its environment (`envOf`) makes `_generate_result` raise. -/
def assetFail : Asset := { asset0 with str_form := "assetFail" }

/-- A second benign asset, distinguishable from the others by `str(asset)`. -/
def asset2 : Asset := { asset0 with str_form := "asset2" }

/-- A benign external world: cache miss, paths exist, ffmpeg available and
succeeding, pipes appear at the first poll, plugin succeeds. -/
def envBase : Env :=
  { cached := none, pathsExist := true, ffmpegAvailable := true, ffmpegOk := true,
    workfileAppears := fun _ => true, procfileAppears := fun _ => true,
    generateOutcome := none, readOutcome := Except.ok ⟨7⟩, post := fun r => r }

/-- As `envBase` but the result store holds a result for the asset. -/
def envHit : Env := { envBase with cached := some ⟨3⟩ }

/-- As `envBase` but the workfile pipes never materialise. -/
def envTimeout : Env := { envBase with workfileAppears := fun _ => false }

/-- As `envBase` but the procfile pipes never materialise. -/
def envProcTimeout : Env := { envBase with procfileAppears := fun _ => false }

/-- As `envBase` but `_generate_result` raises. -/
def envGenFail : Env := { envBase with generateOutcome := some Err.computeError }

/-- The standard configuration: a result store is attached, fifo mode on,
workdir deleted, no workfile archiving, no optional parameters. -/
def cfg0 : ExecCfg :=
  { type_name := "T", version := "V", optional_dict := none, fifo_mode := true,
    delete_workdir := true, has_result_store := true, save_workfiles := false }

/-- As `cfg0` but with no result store. -/
def cfgNoStore : ExecCfg := { cfg0 with has_result_store := false }

/-- Per-asset external world: `assetFail`'s plugin run raises, everything
else is benign. -/
def envOf (a : Asset) : Env := if a.str_form = "assetFail" then envGenFail else envBase

/-- `self._run_on_asset` as mapped over `self.assets` by the sequential
branch of `run`, for the concrete executor `cfgNoStore` in the world
`envOf`. -/
def runOne (a : Asset) : List Event × Flags × Except Err Result :=
  run_on_asset ORDERED_FILTER_LIST cfgNoStore (envOf a) a

/-! ## Theorems -/

example : get_normalized_string_from_dict
    [("max_buffer_sec", .plain "5.0"), ("bitrate_kbps", .plain "45")]
    = some "bitrate_kbps_45_max_buffer_sec_5.0".data := by decide

example : slugifyCallable "<built-in function sorted>".data = some "sorted".data := by decide

example : slugifyCallable "<bound method A.b of x>".data = none := by decide

example : executor_id "T_V" (some [("k", .plain "a b")]) = some "T_V_k_a_b" := by decide

example : executor_id "T_V" (some [("k", .plain "a_b")]) = some "T_V_k_a_b" := by decide

theorem lexLE_total : ∀ a b : List Char, lexLE a b = true ∨ lexLE b a = true
  | [], _ => Or.inl rfl
  | _ :: _, [] => Or.inr rfl
  | a :: as, b :: bs => by
    by_cases hab : a = b
    · subst hab
      simpa [lexLE] using lexLE_total as bs
    · rcases lt_or_gt_of_ne hab with h | h
      · exact Or.inl (by simp [lexLE, hab, h])
      · exact Or.inr (by simp [lexLE, Ne.symm hab, h])

theorem lexLE_trans : ∀ a b c : List Char,
    lexLE a b = true → lexLE b c = true → lexLE a c = true
  | [], _, _, _, _ => rfl
  | _ :: _, [], _, h, _ => by simp [lexLE] at h
  | _ :: _, _ :: _, [], _, h => by simp [lexLE] at h
  | x :: xs, y :: ys, z :: zs, h1, h2 => by
    by_cases hxy : x = y
    · subst hxy
      by_cases hyz : x = z
      · subst hyz
        simp only [lexLE, if_pos rfl] at h1 h2 ⊢
        exact lexLE_trans xs ys zs h1 h2
      · simp only [lexLE, if_neg hyz] at h2 ⊢
        exact h2
    · simp only [lexLE, if_neg hxy, decide_eq_true_eq] at h1
      by_cases hyz : y = z
      · subst hyz
        simp [lexLE, hxy, h1]
      · simp only [lexLE, if_neg hyz, decide_eq_true_eq] at h2
        have hxz : x < z := lt_trans h1 h2
        simp [lexLE, ne_of_lt hxz, hxz]

theorem lexLE_antisymm : ∀ a b : List Char,
    lexLE a b = true → lexLE b a = true → a = b
  | [], [], _, _ => rfl
  | [], _ :: _, _, h => by simp [lexLE] at h
  | _ :: _, [], h, _ => by simp [lexLE] at h
  | a :: as, b :: bs, h1, h2 => by
    by_cases hab : a = b
    · subst hab
      simp only [lexLE, if_pos rfl] at h1 h2
      rw [lexLE_antisymm as bs h1 h2]
    · simp only [lexLE, if_neg hab, decide_eq_true_eq] at h1
      simp only [lexLE, if_neg (Ne.symm hab), decide_eq_true_eq] at h2
      exact absurd h2 (lt_asymm h1)

/-- C1: for every asset for which the result store returns a cached Result
for (asset, executor_id), `_run_on_asset` returns that Result after
post-processing, and its entire trace is the single `result_store.load`
call: no path-existence assertion, no decision-flag write, no
workfile/procfile/log file creation or removal, and no `_generate_result`
or `_read_result` invocation. -/
theorem C1_cache_hit_short_circuits (fl : List String) (cfg : ExecCfg) (env : Env)
    (a : Asset) (r : Result) (hstore : cfg.has_result_store = true)
    (hhit : env.cached = some r) :
    run_on_asset fl cfg env a
      = ([Event.cacheLoad], ⟨false, false⟩, Except.ok (env.post r)) := by
  simp [run_on_asset, hstore, hhit]

/-- Witness for C1: the standard store-attached configuration with a cached
result short-circuits on `asset0`. -/
theorem C1_witness :
    run_on_asset ORDERED_FILTER_LIST cfg0 envHit asset0
      = ([Event.cacheLoad], ⟨false, false⟩, Except.ok ⟨3⟩) :=
  C1_cache_hit_short_circuits ORDERED_FILTER_LIST cfg0 envHit asset0 ⟨3⟩ rfl rfl

/-- C2 (amended): `executor_id` is a pure function of (type, version,
optional_dict) and is invariant under the key order of `optional_dict`: two
dicts equal as key-value sets (permutations with no duplicate keys) yield
the same id.  (The claim's second half — that every single-value change
changes the id — is refuted by `C2_value_collision_counterexample`.) -/
theorem C2_executor_id_invariant_under_key_order (tv : String)
    (d1 d2 : List (String × PyVal)) (hperm : d1.Perm d2)
    (hkeys : (d1.map Prod.fst).Nodup) :
    executor_id tv (some d1) = executor_id tv (some d2) := by
  haveI : IsTotal (String × PyVal) keyLE := ⟨fun a b => lexLE_total a.1.data b.1.data⟩
  haveI : IsTrans (String × PyVal) keyLE :=
    ⟨fun a b c h1 h2 => lexLE_trans a.1.data b.1.data c.1.data h1 h2⟩
  haveI : IsAntisymm (String × PyVal) keyLT :=
    ⟨fun a b h1 h2 =>
      absurd (congrArg String.mk (lexLE_antisymm a.1.data b.1.data h1.1 h2.1)) h1.2⟩
  have hp1 : (List.insertionSort keyLE d1).Perm d1 := List.perm_insertionSort keyLE d1
  have hp2 : (List.insertionSort keyLE d2).Perm d2 := List.perm_insertionSort keyLE d2
  have hperm12 : (List.insertionSort keyLE d1).Perm (List.insertionSort keyLE d2) :=
    hp1.trans (hperm.trans hp2.symm)
  have hkeys2 : (d2.map Prod.fst).Nodup := ((hperm.map Prod.fst).nodup_iff).mp hkeys
  have hkeys1s : ((List.insertionSort keyLE d1).map Prod.fst).Nodup :=
    ((hp1.map Prod.fst).nodup_iff).mpr hkeys
  have hkeys2s : ((List.insertionSort keyLE d2).map Prod.fst).Nodup :=
    ((hp2.map Prod.fst).nodup_iff).mpr hkeys2
  have hne1 : (List.insertionSort keyLE d1).Pairwise (fun x y => x.1 ≠ y.1) :=
    List.pairwise_map.mp hkeys1s
  have hne2 : (List.insertionSort keyLE d2).Pairwise (fun x y => x.1 ≠ y.1) :=
    List.pairwise_map.mp hkeys2s
  have hlt1 : List.Sorted keyLT (List.insertionSort keyLE d1) :=
    (List.sorted_insertionSort keyLE d1).imp₂ (fun _ _ hle hne => ⟨hle, hne⟩) hne1
  have hlt2 : List.Sorted keyLT (List.insertionSort keyLE d2) :=
    (List.sorted_insertionSort keyLE d2).imp₂ (fun _ _ hle hne => ⟨hle, hne⟩) hne2
  have hsorteq : List.insertionSort keyLE d1 = List.insertionSort keyLE d2 :=
    List.eq_of_perm_of_sorted hperm12 hlt1 hlt2
  simp only [executor_id, get_normalized_string_from_dict, hsorteq, hperm.length_eq]

/-- Counterexample for C2 as stated: changing the single value of key `k`
from `"a b"` to `"a_b"` does not change the executor_id, because the id
normalisation replaces quotes and spaces by underscores (lines 128-130). -/
theorem C2_value_collision_counterexample :
    executor_id "T_V" (some [("k", PyVal.plain "a b")])
      = executor_id "T_V" (some [("k", PyVal.plain "a_b")]) ∧
    PyVal.plain "a b" ≠ PyVal.plain "a_b" :=
  ⟨by decide, by decide⟩

/-- Witness for C2: the docstring's two insertion orders of
`{"bitrate_kbps": 45, "max_buffer_sec": 5.0}` yield identical ids. -/
theorem C2_witness :
    executor_id "T_V" (some [("max_buffer_sec", PyVal.plain "5.0"), ("bitrate_kbps", PyVal.plain "45")])
      = executor_id "T_V" (some [("bitrate_kbps", PyVal.plain "45"), ("max_buffer_sec", PyVal.plain "5.0")]) :=
  C2_executor_id_invariant_under_key_order "T_V" _ _ (List.Perm.swap _ _ _) (by decide)

/-- C3 (amended): in the sequential branch of `run`, a runtime failure on
one asset aborts the whole call at once: the assets before the first
failing one are processed, the failing one raises, later assets are never
reached, and no results list survives (the raised error is the call's
outcome). -/
theorem C3_sequential_first_failure_aborts
    (f : Asset → List Event × Flags × Except Err Result)
    (front : List Asset) (a : Asset) (rest : List Asset) (e : Err)
    (hok : ∀ b ∈ front, ∃ r, (f b).2.2 = Except.ok r)
    (hfail : (f a).2.2 = Except.error e) :
    run_sequential f (front ++ a :: rest) = (front ++ [a], Except.error e) := by
  induction front with
  | nil =>
    simp only [List.nil_append]
    rcases hfa : f a with ⟨t, fls, res⟩
    rw [hfa] at hfail
    simp only at hfail
    subst hfail
    simp [run_sequential, hfa]
  | cons b bs ih =>
    obtain ⟨r, hr⟩ := hok b (List.mem_cons_self b bs)
    have hrest := ih (fun x hx => hok x (List.mem_cons_of_mem b hx))
    rcases hfb : f b with ⟨t, fls, res⟩
    rw [hfb] at hr
    simp only at hr
    subst hr
    simp [run_sequential, hfb, hrest]

/-- Counterexample for C3 as stated: with `run(parallelize=False)` over
`[assetFail, asset2]`, the failure on `assetFail` cancels the processing of
`asset2` (which would have succeeded), and the error surfaces immediately
rather than after all work has settled. -/
theorem C3_sequential_abort_counterexample :
    (run_sequential runOne [assetFail, asset2]).2 = Except.error Err.computeError ∧
    (run_sequential runOne [assetFail, asset2]).1.map Asset.str_form = ["assetFail"] ∧
    (runOne asset2).2.2 = Except.ok ⟨7⟩ ∧
    asset2 ∉ (run_sequential runOne [assetFail, asset2]).1 := by
  refine ⟨rfl, rfl, rfl, ?_⟩
  intro h
  have hmap := List.mem_map_of_mem Asset.str_form h
  have hforms : (run_sequential runOne [assetFail, asset2]).1.map Asset.str_form
      = ["assetFail"] := rfl
  rw [hforms] at hmap
  simp [asset2, asset0] at hmap

/-- Witness for C3 (amended): a success on `asset2` followed by a failure
on `assetFail` yields exactly the prefix up to the failure. -/
theorem C3_witness :
    run_sequential runOne ([asset2] ++ assetFail :: [])
      = ([asset2] ++ [assetFail], Except.error Err.computeError) :=
  C3_sequential_first_failure_aborts runOne [asset2] assetFail [] Err.computeError
    (by
      intro b hb
      rw [List.mem_singleton] at hb
      subst hb
      exact ⟨⟨7⟩, rfl⟩)
    rfl

theorem stepSeq_cons_some (t : List Event) (er : Err)
    (rest : List (List Event × Option Err)) :
    stepSeq ((t, some er) :: rest) = (t, some er) := rfl

theorem stepSeq_cons_none (t : List Event) (rest : List (List Event × Option Err)) :
    stepSeq ((t, none) :: rest) = (t ++ (stepSeq rest).1, (stepSeq rest).2) := by
  cases h : stepSeq rest
  simp [stepSeq, h]

theorem mem_stepSeq {P : Event → Prop} :
    ∀ steps : List (List Event × Option Err),
      (∀ s ∈ steps, ∀ e ∈ s.1, P e) → ∀ e ∈ (stepSeq steps).1, P e := by
  intro steps
  induction steps with
  | nil => simp [stepSeq]
  | cons s rest ih =>
    intro hall e he
    rcases s with ⟨t, oe⟩
    cases oe with
    | some er =>
      rw [stepSeq_cons_some] at he
      exact hall _ (List.mem_cons_self _ _) e he
    | none =>
      rw [stepSeq_cons_none] at he
      rcases List.mem_append.mp he with h | h
      · exact hall _ (List.mem_cons_self _ _) e h
      · exact ih (fun s hs => hall s (List.mem_cons_of_mem _ hs)) e h

theorem close_stream_workfile_events (cfg : ExecCfg) (a : Asset) (flags : Flags)
    (b : Bool) : ∀ e ∈ (close_stream_workfile cfg a flags b).1,
      e = Event.customCloseWorkfile b ∨ e = Event.removeWorkfile b := by
  intro e he
  unfold close_stream_workfile at he
  dsimp only at he
  split_ifs at he <;> simp at he <;> tauto

theorem close_stream_procfile_events (a : Asset) (flags : Flags) (b : Bool) :
    ∀ e ∈ (close_stream_procfile a flags b).1, e = Event.removeProcfile b := by
  intro e he
  unfold close_stream_procfile at he
  dsimp only at he
  split_ifs at he <;> simp at he <;> tauto

theorem open_stream_workfile_events (cfg : ExecCfg) (env : Env) (a : Asset)
    (flags : Flags) (b fifo : Bool) :
    ∀ e ∈ (open_stream_workfile cfg env a flags b fifo).1,
      e = Event.customOpenWorkfile b ∨ e = Event.mkfifoWorkfile b
        ∨ e = Event.ffmpegWrite b := by
  intro e he
  unfold open_stream_workfile at he
  dsimp only at he
  split_ifs at he <;> simp at he <;> tauto

theorem open_stream_procfile_events (a : Asset) (flags : Flags) (b fifo : Bool) :
    ∀ e ∈ (open_stream_procfile a flags b fifo).1,
      e = Event.mkfifoProcfile b ∨ e = Event.procWrite b := by
  intro e he
  unfold open_stream_procfile at he
  dsimp only at he
  split_ifs at he <;> simp at he <;> tauto

theorem close_procfiles_events (a : Asset) (flags : Flags) :
    ∀ e ∈ (close_procfiles a flags).1,
      e = Event.removeProcfile true ∨ e = Event.removeProcfile false := by
  intro e he
  unfold close_procfiles at he
  refine @mem_stepSeq
    (fun x => x = Event.removeProcfile true ∨ x = Event.removeProcfile false)
    _ ?_ e he
  intro s hs e2 he2
  simp only [List.mem_cons, List.mem_singleton] at hs
  rcases hs with rfl | rfl | hs
  · exact Or.inl (close_stream_procfile_events a flags true e2 he2)
  · exact Or.inr (close_stream_procfile_events a flags false e2 he2)
  · simp at hs

theorem open_procfiles_events (a : Asset) (flags : Flags) :
    ∀ e ∈ (open_procfiles a flags).1,
      e = Event.mkfifoProcfile true ∨ e = Event.procWrite true
        ∨ e = Event.mkfifoProcfile false ∨ e = Event.procWrite false := by
  intro e he
  unfold open_procfiles at he
  refine @mem_stepSeq
    (fun x => x = Event.mkfifoProcfile true ∨ x = Event.procWrite true
      ∨ x = Event.mkfifoProcfile false ∨ x = Event.procWrite false)
    _ ?_ e he
  intro s hs e2 he2
  simp only [List.mem_cons, List.mem_singleton] at hs
  rcases hs with rfl | rfl | hs
  · rcases open_stream_procfile_events a flags true false e2 he2 with h | h <;> tauto
  · rcases open_stream_procfile_events a flags false false e2 he2 with h | h <;> tauto
  · simp at hs

theorem open_procfiles_in_fifo_mode_events (env : Env) (a : Asset) (flags : Flags) :
    ∀ e ∈ (open_procfiles_in_fifo_mode env a flags).1,
      e = Event.mkfifoProcfile true ∨ e = Event.procWrite true
        ∨ e = Event.mkfifoProcfile false ∨ e = Event.procWrite false
        ∨ e = Event.pollProcfiles := by
  intro e he
  unfold open_procfiles_in_fifo_mode at he
  rcases h : wait_for_procfiles env with ⟨pt, pe⟩
  rw [h] at he
  simp only at he
  rcases List.mem_append.mp he with h2 | h2
  · rcases List.mem_append.mp h2 with h3 | h3
    · rcases open_stream_procfile_events a flags true true e h3 with h4 | h4 <;> tauto
    · rcases open_stream_procfile_events a flags false true e h3 with h4 | h4 <;> tauto
  · have hpt : pt = [Event.pollProcfiles] := by
      unfold wait_for_procfiles at h
      split_ifs at h <;> simp_all
    rw [hpt] at h2
    simp at h2
    tauto

/-- C4: in fifo mode, the consumer's startup polls a fixed 10 times for the
workfile (resp. procfile) pipes; if they never materialise within the poll
budget, `_run_on_asset` fails with the resource-timeout error raised by
`_wait_for_workfiles` (resp. `_wait_for_procfiles`), nothing recovers it,
and no `result_store.save` is issued for that asset. -/
theorem C4_fifo_poll_timeout_is_fatal_and_uncached :
    (∀ (fl : List String) (cfg : ExecCfg) (env : Env) (a : Asset),
      cfg.has_result_store = true → env.cached = none → env.pathsExist = true →
      cfg.fifo_mode = true → need_ffmpeg fl a = true →
      a.ref_proc_callback_present = false → a.dis_proc_callback_present = false →
      hasMethodOverride cfg.optional_dict "_close_workfile_method" = false →
      hasMethodOverride cfg.optional_dict "_open_workfile_method" = false →
      a.ref_path ≠ a.ref_workfile_path → a.dis_path ≠ a.dis_workfile_path →
      env.ffmpegAvailable = true → env.ffmpegOk = true →
      (∀ i, i < 10 → env.workfileAppears i = false) →
      (run_on_asset fl cfg env a).2.2 = Except.error Err.resourceTimeout ∧
        Event.cacheSave ∉ (run_on_asset fl cfg env a).1) ∧
    (∀ (fl : List String) (cfg : ExecCfg) (env : Env) (a : Asset),
      cfg.has_result_store = true → env.cached = none → env.pathsExist = true →
      cfg.fifo_mode = true → need_ffmpeg fl a = true →
      a.ref_proc_callback_present = true →
      hasMethodOverride cfg.optional_dict "_close_workfile_method" = false →
      hasMethodOverride cfg.optional_dict "_open_workfile_method" = false →
      a.ref_path ≠ a.ref_workfile_path → a.dis_path ≠ a.dis_workfile_path →
      a.ref_workfile_path ≠ a.ref_procfile_path →
      a.dis_workfile_path ≠ a.dis_procfile_path →
      env.ffmpegAvailable = true → env.ffmpegOk = true →
      env.workfileAppears 0 = true →
      (∀ i, i < 10 → env.procfileAppears i = false) →
      (run_on_asset fl cfg env a).2.2 = Except.error Err.resourceTimeout ∧
        Event.cacheSave ∉ (run_on_asset fl cfg env a).1) := by
  constructor
  · intro fl cfg env a hstore hmiss hpaths hfifo hneed hcb1 hcb2 hovC hovO hw1 hw2
      hffa hffk hnever
    have hany : (List.range 10).any env.workfileAppears = false := by
      rw [List.any_eq_false]
      intro x hx
      rw [List.mem_range] at hx
      simp [hnever x hx]
    have hfs1 : set_asset_use_path_as_workpath fl a ⟨false, false⟩
        = (⟨false, false⟩, []) := by
      simp [set_asset_use_path_as_workpath, hneed]
    have hfs2 : set_asset_use_workpath_as_procpath a ⟨false, false⟩
        = (⟨false, true⟩, [Event.setUseWorkpathAsProcpath]) := by
      simp [set_asset_use_workpath_as_procpath, hcb1, hcb2]
    have hclosew : close_workfiles cfg a ⟨false, true⟩
        = ([Event.removeWorkfile true, Event.removeWorkfile false], none) := by
      simp [close_workfiles, close_stream_workfile, stepSeq, hovC, hw1, hw2]
    have hopen : open_workfiles_in_fifo_mode cfg env a ⟨false, true⟩
        = ([Event.mkfifoWorkfile true, Event.ffmpegWrite true,
            Event.mkfifoWorkfile false, Event.ffmpegWrite false,
            Event.pollWorkfiles], some Err.resourceTimeout) := by
      simp [open_workfiles_in_fifo_mode, open_stream_workfile, wait_for_workfiles,
        hovO, hw1, hw2, hffa, hffk, hany]
    have hrun : run_on_asset fl cfg env a
        = ([Event.cacheLoad, Event.assertPaths, Event.setUseWorkpathAsProcpath,
            Event.removeWorkfile true, Event.removeWorkfile false,
            Event.makeParentDirs, Event.mkfifoWorkfile true, Event.ffmpegWrite true,
            Event.mkfifoWorkfile false, Event.ffmpegWrite false,
            Event.pollWorkfiles], ⟨false, true⟩,
           Except.error Err.resourceTimeout) := by
      unfold run_on_asset miss_steps
      simp [hstore, hmiss, hpaths, hfs1, hfs2, hfifo, hclosew, hopen, stepSeq]
    rw [hrun]
    exact ⟨rfl, by decide⟩
  · intro fl cfg env a hstore hmiss hpaths hfifo hneed hcb hovC hovO hw1 hw2
      hp3 hp4 hffa hffk hw0 hnever
    have hanyw : (List.range 10).any env.workfileAppears = true := by
      rw [List.any_eq_true]
      exact ⟨0, List.mem_range.mpr (by decide), hw0⟩
    have hanyp : (List.range 10).any env.procfileAppears = false := by
      rw [List.any_eq_false]
      intro x hx
      rw [List.mem_range] at hx
      simp [hnever x hx]
    have hfs1 : set_asset_use_path_as_workpath fl a ⟨false, false⟩
        = (⟨false, false⟩, []) := by
      simp [set_asset_use_path_as_workpath, hneed]
    have hfs2 : set_asset_use_workpath_as_procpath a ⟨false, false⟩
        = (⟨false, false⟩, []) := by
      simp [set_asset_use_workpath_as_procpath, hcb]
    have hclosew : close_workfiles cfg a ⟨false, false⟩
        = ([Event.removeWorkfile true, Event.removeWorkfile false], none) := by
      simp [close_workfiles, close_stream_workfile, stepSeq, hovC, hw1, hw2]
    have hclosep : close_procfiles a ⟨false, false⟩
        = ([Event.removeProcfile true, Event.removeProcfile false], none) := by
      simp [close_procfiles, close_stream_procfile, stepSeq, hp3, hp4]
    have hopenw : open_workfiles_in_fifo_mode cfg env a ⟨false, false⟩
        = ([Event.mkfifoWorkfile true, Event.ffmpegWrite true,
            Event.mkfifoWorkfile false, Event.ffmpegWrite false,
            Event.pollWorkfiles], none) := by
      simp [open_workfiles_in_fifo_mode, open_stream_workfile, wait_for_workfiles,
        hovO, hw1, hw2, hffa, hffk, hanyw]
    have hopenp : open_procfiles_in_fifo_mode env a ⟨false, false⟩
        = ([Event.mkfifoProcfile true, Event.procWrite true,
            Event.mkfifoProcfile false, Event.procWrite false,
            Event.pollProcfiles], some Err.resourceTimeout) := by
      simp [open_procfiles_in_fifo_mode, open_stream_procfile, wait_for_procfiles,
        hp3, hp4, hanyp]
    have hrun : run_on_asset fl cfg env a
        = ([Event.cacheLoad, Event.assertPaths,
            Event.removeWorkfile true, Event.removeWorkfile false,
            Event.removeProcfile true, Event.removeProcfile false,
            Event.makeParentDirs, Event.mkfifoWorkfile true, Event.ffmpegWrite true,
            Event.mkfifoWorkfile false, Event.ffmpegWrite false,
            Event.pollWorkfiles, Event.mkfifoProcfile true, Event.procWrite true,
            Event.mkfifoProcfile false, Event.procWrite false,
            Event.pollProcfiles], ⟨false, false⟩,
           Except.error Err.resourceTimeout) := by
      unfold run_on_asset miss_steps
      simp [hstore, hmiss, hpaths, hfs1, hfs2, hfifo, hclosew, hclosep, hopenw,
        hopenp, stepSeq]
    rw [hrun]
    exact ⟨rfl, by decide⟩

/-- Witness for C4: `assetNeed` in a world whose workfile pipes never
appear, and `assetProc` in a world whose procfile pipes never appear, both
fail with the resource timeout and never save a result. -/
theorem C4_witness :
    (run_on_asset ORDERED_FILTER_LIST cfg0 envTimeout assetNeed).2.2
        = Except.error Err.resourceTimeout ∧
    Event.cacheSave ∉ (run_on_asset ORDERED_FILTER_LIST cfg0 envTimeout assetNeed).1 ∧
    (run_on_asset ORDERED_FILTER_LIST cfg0 envProcTimeout assetProc).2.2
        = Except.error Err.resourceTimeout ∧
    Event.cacheSave ∉ (run_on_asset ORDERED_FILTER_LIST cfg0 envProcTimeout assetProc).1 := by
  obtain ⟨h1, h2⟩ := C4_fifo_poll_timeout_is_fatal_and_uncached
  have ha := h1 ORDERED_FILTER_LIST cfg0 envTimeout assetNeed rfl rfl rfl rfl (by decide)
    rfl rfl rfl rfl (by decide) (by decide) rfl rfl (fun i _ => rfl)
  have hb := h2 ORDERED_FILTER_LIST cfg0 envProcTimeout assetProc rfl rfl rfl rfl
    (by decide) rfl rfl rfl (by decide) (by decide) (by decide) (by decide) rfl rfl
    rfl (fun i _ => rfl)
  exact ⟨ha.1, ha.2, hb.1, hb.2⟩

set_option maxHeartbeats 2000000 in
/-- C5: for every cache-miss asset for which `_need_ffmpeg` is false —
compute geometry equal to both streams' native geometry, both sources raw,
no frame sub-range, no disagreeing workfile-format override, no configured
filter — the decision flag `use_path_as_workpath` is set, no workfile is
created, removed, opened or closed anywhere in the run, and the
workfile-path accessors used downstream resolve to the source paths. -/
theorem C5_no_transcode_reads_source_directly
    (fl : List String) (cfg : ExecCfg) (env : Env) (a : Asset)
    (hstore : cfg.has_result_store = true) (hmiss : env.cached = none)
    (hpaths : env.pathsExist = true)
    (hgr : a.quality_width_height = a.ref_width_height)
    (hgd : a.quality_width_height = a.dis_width_height)
    (hrr : a.ref_yuv_type ≠ "notyuv") (hrd : a.dis_yuv_type ≠ "notyuv")
    (hsr : a.ref_start_end_frame = none) (hsd : a.dis_start_end_frame = none)
    (hov : a.workfile_yuv_type_override = none ∨
      (a.workfile_yuv_type = a.ref_yuv_type ∧ a.workfile_yuv_type = a.dis_yuv_type))
    (hfl : ∀ k ∈ fl, a.filter_cmds k true = none ∧ a.filter_cmds k false = none) :
    (run_on_asset fl cfg env a).2.1.use_path_as_workpath = true ∧
    (∀ e ∈ (run_on_asset fl cfg env a).1, isWorkfileStageEvent e = false) ∧
    eff_ref_workfile_path a (run_on_asset fl cfg env a).2.1 = a.ref_path ∧
    eff_dis_workfile_path a (run_on_asset fl cfg env a).2.1 = a.dis_path := by
  have hneed : need_ffmpeg fl a = false := by
    unfold need_ffmpeg
    rcases hov with hov | ⟨hov1, hov2⟩
    · simp [hgr, hgd, hrr, hrd, hsr, hsd, hov, List.any_eq_false]
      exact ⟨hgr.symm.trans hgd, hfl⟩
    · simp [hgr, hgd, hrr, hrd, hsr, hsd, hov1, hov2, List.any_eq_false]
      exact ⟨⟨hgr.symm.trans hgd, fun _ => hov1.symm.trans hov2⟩, hfl⟩
  have hfs1 : set_asset_use_path_as_workpath fl a ⟨false, false⟩
      = (⟨true, false⟩, [Event.setUsePathAsWorkpath]) := by
    simp [set_asset_use_path_as_workpath, hneed]
  rcases hfs2 : set_asset_use_workpath_as_procpath a ⟨true, false⟩ with ⟨flags, t2⟩
  have hupw : flags.use_path_as_workpath = true := by
    unfold set_asset_use_workpath_as_procpath at hfs2
    split_ifs at hfs2 <;> (rw [Prod.mk.injEq] at hfs2; rw [← hfs2.1])
  have ht2 : ∀ e ∈ t2, e = Event.setUseWorkpathAsProcpath := by
    unfold set_asset_use_workpath_as_procpath at hfs2
    split_ifs at hfs2 <;> rw [Prod.mk.injEq] at hfs2 <;> rw [← hfs2.2] <;> simp
  have hclw : (if flags.use_path_as_workpath then
      (([] : List Event), (none : Option Err)) else close_workfiles cfg a flags)
      = ([], none) := by simp [hupw]
  have hopw : (if flags.use_path_as_workpath then
      (([] : List Event), (none : Option Err))
      else if cfg.fifo_mode then open_workfiles_in_fifo_mode cfg env a flags
      else open_workfiles cfg env a flags) = ([], none) := by simp [hupw]
  have hproc2 : ∀ e ∈ (if flags.use_workpath_as_procpath then
      (([] : List Event), (none : Option Err)) else close_procfiles a flags).1,
      isWorkfileStageEvent e = false := by
    intro e he
    by_cases hq : flags.use_workpath_as_procpath = true
    · simp [hq] at he
    · rw [Bool.not_eq_true] at hq
      simp only [hq, Bool.false_eq_true, if_false] at he
      rcases close_procfiles_events a flags e he with rfl | rfl <;> rfl
  have hproc3 : ∀ e ∈ (if flags.use_workpath_as_procpath then
      (([] : List Event), (none : Option Err))
      else if cfg.fifo_mode then open_procfiles_in_fifo_mode env a flags
      else open_procfiles a flags).1,
      isWorkfileStageEvent e = false := by
    intro e he
    by_cases hq : flags.use_workpath_as_procpath = true
    · simp [hq] at he
    · rw [Bool.not_eq_true] at hq
      simp only [hq, Bool.false_eq_true, if_false] at he
      by_cases hf : cfg.fifo_mode = true
      · simp only [hf, if_true] at he
        rcases open_procfiles_in_fifo_mode_events env a flags e he
          with rfl | rfl | rfl | rfl | rfl <;> rfl
      · rw [Bool.not_eq_true] at hf
        simp only [hf, Bool.false_eq_true, if_false] at he
        rcases open_procfiles_events a flags e he with rfl | rfl | rfl | rfl <;> rfl
  have hms : ∀ s ∈ miss_steps cfg env a flags [Event.setUsePathAsWorkpath] t2,
      ∀ e ∈ s.1, isWorkfileStageEvent e = false := by
    intro s hs
    unfold miss_steps at hs
    dsimp only at hs
    simp only [List.mem_cons, List.mem_singleton] at hs
    rcases hs with rfl | rfl | rfl | rfl | rfl | rfl | rfl | rfl | rfl | hs
    · intro e he
      simp at he
      subst he
      rfl
    · intro e he
      rw [ht2 e he]
      rfl
    · intro e he
      rw [hclw] at he
      simp at he
    · exact hproc2
    · intro e he
      simp at he
      subst he
      rfl
    · intro e he
      rw [hopw] at he
      simp at he
    · exact hproc3
    · intro e he
      simp at he
      subst he
      rfl
    · intro e he
      simp at he
      subst he
      rfl
    · simp at hs
  have hcl : ∀ s ∈ cleanup_steps cfg a flags, ∀ e ∈ s.1,
      isWorkfileStageEvent e = false := by
    intro s hs
    unfold cleanup_steps at hs
    simp only [List.mem_cons, List.mem_singleton] at hs
    rcases hs with rfl | rfl | rfl | hs
    · intro e he
      by_cases hd : cfg.delete_workdir = true
      · simp only [hd, if_true] at he
        rw [hclw] at he
        simp at he
      · rw [Bool.not_eq_true] at hd
        simp [hd] at he
    · intro e he
      by_cases hd : cfg.delete_workdir = true
      · simp only [hd, if_true] at he
        exact hproc2 e he
      · rw [Bool.not_eq_true] at hd
        simp [hd] at he
    · intro e he
      by_cases hd : cfg.delete_workdir = true
      · simp only [hd, if_true] at he
        simp at he
        rcases he with rfl | rfl <;> rfl
      · rw [Bool.not_eq_true] at hd
        simp [hd] at he
    · simp at hs
  have htmem0 := @mem_stepSeq (fun e => isWorkfileStageEvent e = false)
    (miss_steps cfg env a flags [Event.setUsePathAsWorkpath] t2) hms
  have hcmem0 := @mem_stepSeq (fun e => isWorkfileStageEvent e = false)
    (cleanup_steps cfg a flags) hcl
  have hkey : (run_on_asset fl cfg env a).2.1 = flags ∧
      ∀ e ∈ (run_on_asset fl cfg env a).1, isWorkfileStageEvent e = false := by
    rcases hts : stepSeq (miss_steps cfg env a flags [Event.setUsePathAsWorkpath] t2)
      with ⟨t, oe⟩
    have htmem : ∀ e ∈ t, isWorkfileStageEvent e = false := by
      rw [hts] at htmem0
      exact htmem0
    unfold run_on_asset
    simp only [hstore, hmiss, hpaths, hfs1, hfs2, hts, if_true,
      Bool.true_eq_false, if_false]
    cases oe with
    | some err =>
      refine ⟨rfl, ?_⟩
      intro e he
      simp only [List.cons_append, List.nil_append, List.mem_cons] at he
      rcases he with rfl | rfl | he
      · rfl
      · rfl
      · exact htmem e he
    | none =>
      cases hro : env.readOutcome with
      | error err =>
        refine ⟨rfl, ?_⟩
        intro e he
        simp only [List.cons_append, List.nil_append, List.mem_cons,
          List.mem_append, List.mem_singleton, List.not_mem_nil, or_false] at he
        rcases he with rfl | rfl | he | rfl
        · rfl
        · rfl
        · exact htmem e he
        · rfl
      | ok result =>
        rcases hcs : stepSeq (cleanup_steps cfg a flags) with ⟨ct, ce⟩
        have hcmem : ∀ e ∈ ct, isWorkfileStageEvent e = false := by
          rw [hcs] at hcmem0
          exact hcmem0
        have hflat : ∀ x : Event, (x = Event.cacheLoad ∨ x = Event.assertPaths ∨ x ∈ t
            ∨ x = Event.readResult ∨ x = Event.cacheSave
            ∨ x = Event.saveWorkfileArtifact true ∨ x = Event.saveWorkfileArtifact false
            ∨ x ∈ ct) → isWorkfileStageEvent x = false := by
          intro x hx
          rcases hx with rfl | rfl | hx | rfl | rfl | rfl | rfl | hx
          · rfl
          · rfl
          · exact htmem x hx
          · rfl
          · rfl
          · rfl
          · rfl
          · exact hcmem x hx
        cases ce with
        | some err =>
          refine ⟨rfl, ?_⟩
          intro e he
          simp only [hstore, if_true, List.cons_append, List.nil_append,
            List.mem_cons, List.mem_append, List.mem_singleton,
            List.not_mem_nil, or_false] at he
          refine hflat e ?_
          by_cases hsw : cfg.save_workfiles = true
          · simp only [hsw, if_true, List.mem_cons, List.not_mem_nil, or_false] at he
            tauto
          · rw [Bool.not_eq_true] at hsw
            simp only [hsw, Bool.false_eq_true, if_false, List.not_mem_nil,
              or_false] at he
            tauto
        | none =>
          refine ⟨rfl, ?_⟩
          intro e he
          simp only [hstore, if_true, List.cons_append, List.nil_append,
            List.mem_cons, List.mem_append, List.mem_singleton,
            List.not_mem_nil, or_false] at he
          refine hflat e ?_
          by_cases hsw : cfg.save_workfiles = true
          · simp only [hsw, if_true, List.mem_cons, List.not_mem_nil, or_false] at he
            tauto
          · rw [Bool.not_eq_true] at hsw
            simp only [hsw, Bool.false_eq_true, if_false, List.not_mem_nil,
              or_false] at he
            tauto
  refine ⟨?_, hkey.2, ?_, ?_⟩
  · rw [hkey.1]; exact hupw
  · rw [hkey.1]; simp [eff_ref_workfile_path, hupw]
  · rw [hkey.1]; simp [eff_dis_workfile_path, hupw]

/-- Witness for C5: on `asset0` (raw 4x4 source computed at 4x4, no
filters), the flag is set, the trace touches no workfile, and the effective
workfile paths are the source paths. -/
theorem C5_witness :
    (run_on_asset ORDERED_FILTER_LIST cfg0 envBase asset0).2.1.use_path_as_workpath
        = true ∧
    (∀ e ∈ (run_on_asset ORDERED_FILTER_LIST cfg0 envBase asset0).1,
      isWorkfileStageEvent e = false) ∧
    eff_ref_workfile_path asset0
        (run_on_asset ORDERED_FILTER_LIST cfg0 envBase asset0).2.1 = asset0.ref_path ∧
    eff_dis_workfile_path asset0
        (run_on_asset ORDERED_FILTER_LIST cfg0 envBase asset0).2.1 = asset0.dis_path :=
  C5_no_transcode_reads_source_directly ORDERED_FILTER_LIST cfg0 envBase asset0
    rfl rfl rfl rfl rfl (by decide) (by decide) rfl rfl (Or.inl rfl)
    (fun k _ => ⟨rfl, rfl⟩)

theorem lookup_mem {m : List (String × Nat)} {s : String} {v : Nat}
    (h : m.lookup s = some v) : (s, v) ∈ m := by
  induction m with
  | nil => simp [List.lookup] at h
  | cons kv rest ih =>
    rcases kv with ⟨k, w⟩
    rw [List.lookup_cons] at h
    by_cases hk : s = k
    · subst hk
      simp at h
      subst h
      exact List.mem_cons_self _ _
    · rw [beq_eq_false_iff_ne.mpr hk] at h
      simp only at h
      exact List.mem_cons_of_mem _ (ih h)

theorem lookup_append_left {m m2 : List (String × Nat)} {s : String}
    (h : (m.lookup s).isSome) : (m ++ m2).lookup s = m.lookup s := by
  induction m with
  | nil => simp [List.lookup] at h
  | cons kv rest ih =>
    rcases kv with ⟨k, w⟩
    rw [List.cons_append, List.lookup_cons, List.lookup_cons]
    by_cases hk : s = k
    · rw [beq_iff_eq.mpr hk]
    · rw [beq_eq_false_iff_ne.mpr hk]
      simp only
      rw [List.lookup_cons, beq_eq_false_iff_ne.mpr hk] at h
      simp only at h
      exact ih h

theorem lookup_append_new {m : List (String × Nat)} {s : String} {v : Nat}
    (h : m.lookup s = none) : (m ++ [(s, v)]).lookup s = some v := by
  induction m with
  | nil => simp [List.lookup]
  | cons kv rest ih =>
    rcases kv with ⟨k, w⟩
    rw [List.lookup_cons] at h
    rw [List.cons_append, List.lookup_cons]
    by_cases hk : s = k
    · rw [beq_iff_eq.mpr hk] at h
      simp at h
    · rw [beq_eq_false_iff_ne.mpr hk] at h ⊢
      simp only at h ⊢
      exact ih h

theorem foldl_lock_WF : ∀ (strs : List String) (m : List (String × Nat)),
    m.map Prod.snd = List.range m.length →
    (List.foldl
        (fun m s => if (m.lookup s).isSome then m else m ++ [(s, m.length)])
        m strs).map Prod.snd
      = List.range (List.foldl
        (fun m s => if (m.lookup s).isSome then m else m ++ [(s, m.length)])
        m strs).length
  | [], m, hWF => hWF
  | s :: rest, m, hWF => by
    rw [List.foldl_cons]
    by_cases h : (m.lookup s).isSome
    · rw [if_pos h]
      exact foldl_lock_WF rest m hWF
    · rw [if_neg h]
      refine foldl_lock_WF rest _ ?_
      rw [List.map_append, List.length_append, hWF]
      simp [List.range_succ]

theorem foldl_lock_mono : ∀ (strs : List String) (m : List (String × Nat))
    (x : String), (m.lookup x).isSome →
    ((List.foldl
        (fun m s => if (m.lookup s).isSome then m else m ++ [(s, m.length)])
        m strs).lookup x).isSome
  | [], _, _, h => h
  | s :: rest, m, x, h => by
    rw [List.foldl_cons]
    by_cases hs : (m.lookup s).isSome
    · rw [if_pos hs]
      exact foldl_lock_mono rest m x h
    · rw [if_neg hs]
      refine foldl_lock_mono rest _ x ?_
      rw [lookup_append_left h]
      exact h

theorem foldl_lock_mem : ∀ (strs : List String) (m : List (String × Nat))
    (s : String), s ∈ strs →
    ((List.foldl
        (fun m s => if (m.lookup s).isSome then m else m ++ [(s, m.length)])
        m strs).lookup s).isSome := by
  intro strs
  induction strs with
  | nil => intro m s h; simp at h
  | cons hd rest ih =>
    intro m s h
    rw [List.foldl_cons]
    rcases List.mem_cons.mp h with rfl | h
    · by_cases hs : (m.lookup s).isSome
      · rw [if_pos hs]
        exact foldl_lock_mono rest m s hs
      · rw [if_neg hs]
        refine foldl_lock_mono rest _ s ?_
        rw [lookup_append_new (Option.not_isSome_iff_eq_none.mp hs)]
        rfl
    · by_cases hs : (m.lookup hd).isSome
      · rw [if_pos hs]
        exact ih m s h
      · rw [if_neg hs]
        exact ih _ s h

theorem lock_lookup_inj {m : List (String × Nat)}
    (hWF : m.map Prod.snd = List.range m.length) {s1 s2 : String} {v : Nat}
    (h1 : m.lookup s1 = some v) (h2 : m.lookup s2 = some v) : s1 = s2 := by
  have hnd : (m.map Prod.snd).Nodup := by
    rw [hWF]
    exact List.nodup_range _
  have hinj := List.inj_on_of_nodup_map hnd (lookup_mem h1) (lookup_mem h2) rfl
  exact congrArg Prod.fst hinj

/-- C6: within one `run(parallelize=True)` call, the registry built over
the asset list assigns every two assets with identical canonical string
form (`str(asset)`) the same lock instance and two assets with different
string forms distinct lock instances, and every asset receives a lock from
the registry (which is built once, before any worker is dispatched). -/
theorem C6_lock_registry_identity (assets : List Asset) (i j : Nat)
    (hi : i < assets.length) (hj : j < assets.length) :
    ((assign_locks (assets.map Asset.str_form))[i]?
        = (assign_locks (assets.map Asset.str_form))[j]?
      ↔ (assets.map Asset.str_form)[i]? = (assets.map Asset.str_form)[j]?) ∧
    ∃ k, (assign_locks (assets.map Asset.str_form))[i]? = some (some k) := by
  have hi2 : i < (assets.map Asset.str_form).length := by
    rw [List.length_map]; exact hi
  have hj2 : j < (assets.map Asset.str_form).length := by
    rw [List.length_map]; exact hj
  have hWF := foldl_lock_WF (assets.map Asset.str_form) [] rfl
  have hgi : (assets.map Asset.str_form)[i]? = some (assets.map Asset.str_form)[i] :=
    List.getElem?_eq_getElem hi2
  have hgj : (assets.map Asset.str_form)[j]? = some (assets.map Asset.str_form)[j] :=
    List.getElem?_eq_getElem hj2
  have hmi : (assets.map Asset.str_form)[i] ∈ assets.map Asset.str_form :=
    List.getElem_mem hi2
  have hmj : (assets.map Asset.str_form)[j] ∈ assets.map Asset.str_form :=
    List.getElem_mem hj2
  have hli : (assign_locks (assets.map Asset.str_form))[i]?
      = some ((build_map_asset_lock (assets.map Asset.str_form)).lookup
          (assets.map Asset.str_form)[i]) := by
    unfold assign_locks
    rw [List.getElem?_map, hgi]
    rfl
  have hlj : (assign_locks (assets.map Asset.str_form))[j]?
      = some ((build_map_asset_lock (assets.map Asset.str_form)).lookup
          (assets.map Asset.str_form)[j]) := by
    unfold assign_locks
    rw [List.getElem?_map, hgj]
    rfl
  have hsi : ((build_map_asset_lock (assets.map Asset.str_form)).lookup
      (assets.map Asset.str_form)[i]).isSome :=
    foldl_lock_mem (assets.map Asset.str_form) [] _ hmi
  have hsj : ((build_map_asset_lock (assets.map Asset.str_form)).lookup
      (assets.map Asset.str_form)[j]).isSome :=
    foldl_lock_mem (assets.map Asset.str_form) [] _ hmj
  constructor
  · constructor
    · intro h
      rw [hli, hlj] at h
      have hlk := Option.some.inj h
      obtain ⟨v, hv⟩ := Option.isSome_iff_exists.mp hsi
      have hv2 : (build_map_asset_lock (assets.map Asset.str_form)).lookup
          (assets.map Asset.str_form)[j] = some v := by
        rw [← hlk]
        exact hv
      have := lock_lookup_inj hWF hv hv2
      rw [hgi, hgj, this]
    · intro h
      rw [hgi, hgj] at h
      rw [hli, hlj, Option.some.inj h]
  · obtain ⟨v, hv⟩ := Option.isSome_iff_exists.mp hsi
    exact ⟨v, by rw [hli, hv]⟩

/-- Witness for C6: over `[asset0, asset2, asset0]`, the first and third
assets (same string form) relate as the registry prescribes, and the first
asset holds a lock. -/
theorem C6_witness :
    ((assign_locks ([asset0, asset2, asset0].map Asset.str_form))[0]?
        = (assign_locks ([asset0, asset2, asset0].map Asset.str_form))[2]?
      ↔ ([asset0, asset2, asset0].map Asset.str_form)[0]?
        = ([asset0, asset2, asset0].map Asset.str_form)[2]?) ∧
    ∃ k, (assign_locks ([asset0, asset2, asset0].map Asset.str_form))[0]?
        = some (some k) :=
  C6_lock_registry_identity [asset0, asset2, asset0] 0 2 (by decide) (by decide)

theorem takeWhile_ne_newline : ∀ (l1 l2 : List Char), '\n' ∉ l1 →
    (l1 ++ '\n' :: l2).takeWhile (fun ch => ch ≠ '\n') = l1 := by
  intro l1 l2 h
  induction l1 with
  | nil => simp [List.takeWhile_cons]
  | cons c cs ih =>
    have hc : c ≠ '\n' := fun hh => h (by simp [hh])
    have hrest := ih (fun hh => h (List.mem_cons_of_mem _ hh))
    simp [List.takeWhile_cons, hc]
    simpa [decide_not] using hrest

/-- Counterexample for C7 as stated: `_prepare_log_file` writes the cozy
type-version string ("add runner type and version", line 298), not
`executor_id`; for an executor with a non-empty `optional_dict`, the
prepared first line lacks the canonical optional-parameters suffix and so
differs from `executor_id`. -/
theorem C7_first_line_differs_from_executor_id_counterexample :
    firstLineOf (prepare_log_file_content (get_cozy_type_version_string "T" "V"))
      = "T_V" ∧
    executor_id (type_version_string "T" "V") (some [("a", PyVal.plain "1")])
      = some "T_V_a_1" ∧
    ("T_V" : String) ≠ "T_V_a_1" :=
  ⟨by decide, by decide, by decide⟩

/-- C7 (amended): the log artifact's first line is the runner's cozy
type-version string — a function of type and version only, written as
`"{type_version_str}\n\n"` — and not the full `executor_id`; whenever that
string is newline-free it is recovered exactly as the first line,
regardless of the plugin. -/
theorem C7_first_line_is_cozy_type_version
    (cozy : String → String → String) (t v : String)
    (hnl : '\n' ∉ (cozy t v).data) :
    prepare_log_file_content (cozy t v) = cozy t v ++ "\n\n" ∧
    firstLineOf (prepare_log_file_content (cozy t v)) = cozy t v := by
  refine ⟨rfl, ?_⟩
  unfold firstLineOf prepare_log_file_content
  have hdata : (cozy t v ++ "\n\n").data = (cozy t v).data ++ '\n' :: '\n' :: [] := by
    rw [String.data_append]
  rw [hdata, takeWhile_ne_newline _ _ hnl]

/-- Witness for C7 (amended): the modelled cozy string `"T_V"` is
newline-free and is the first line of the prepared log content. -/
theorem C7_witness :
    prepare_log_file_content (get_cozy_type_version_string "T" "V")
      = get_cozy_type_version_string "T" "V" ++ "\n\n" ∧
    firstLineOf (prepare_log_file_content (get_cozy_type_version_string "T" "V"))
      = get_cozy_type_version_string "T" "V" :=
  C7_first_line_is_cozy_type_version get_cozy_type_version_string "T" "V" (by decide)

/-- Counterexample for C8 as stated: an asset whose only geometry filter is
a `scale` entry of the ordered filter list, with `quality_width` and
`quality_height` not explicitly in `asset_dict`, passes `_assert_an_asset`
(the code only guards crop and pad, lines 243-248). -/
theorem C8_other_filter_not_validated_counterexample :
    assert_an_asset true ORDERED_FILTER_LIST assetScale = Except.ok () ∧
    "scale" ∈ ORDERED_FILTER_LIST ∧
    assetScale.filter_cmds "scale" true = some "4:4" ∧
    assetScale.quality_width_in_dict = false ∧
    assetScale.quality_height_in_dict = false :=
  ⟨rfl, by decide, rfl, rfl, rfl⟩

/-- C8 (amended): validation raises a fatal configuration error for every
asset that has a crop or pad filter configured on either stream without
`quality_width` and `quality_height` explicitly present in `asset_dict`
(other entries of the ordered filter list do not trigger this check). -/
theorem C8_crop_pad_require_explicit_geometry
    (fl : List String) (a : Asset)
    (hcp : a.ref_crop_cmd.isSome = true ∨ a.dis_crop_cmd.isSome = true
      ∨ a.ref_pad_cmd.isSome = true ∨ a.dis_pad_cmd.isSome = true)
    (hq : ¬(a.quality_width_in_dict = true ∧ a.quality_height_in_dict = true)) :
    assert_an_asset true fl a = Except.error Err.assertionError := by
  have hqb : (a.quality_width_in_dict && a.quality_height_in_dict) = false := by
    by_cases h1 : a.quality_width_in_dict = true
    · by_cases h2 : a.quality_height_in_dict = true
      · exact absurd ⟨h1, h2⟩ hq
      · rw [Bool.not_eq_true] at h2
        simp [h2]
    · rw [Bool.not_eq_true] at h1
      simp [h1]
  unfold assert_an_asset
  split_ifs with h1 h2 h3 h4 h5
  · rfl
  · simp at h2
  · rfl
  · rfl
  · rfl
  · exfalso
    rw [hqb] at h4 h5
    simp at h4 h5
    rcases hcp with h | h | h | h
    · rw [h4.1] at h
      simp at h
    · rw [h4.2] at h
      simp at h
    · rw [h5.1] at h
      simp at h
    · rw [h5.2] at h
      simp at h

/-- Witness for C8 (amended): a crop on the reference stream without
explicit quality geometry is rejected. -/
theorem C8_witness :
    assert_an_asset true ORDERED_FILTER_LIST
        { asset0 with
            filter_cmds := fun key is_ref =>
              if key = "crop" ∧ is_ref = true then some "4:4:0:0" else none }
      = Except.error Err.assertionError :=
  C8_crop_pad_require_explicit_geometry ORDERED_FILTER_LIST _
    (Or.inl rfl) (by decide)

theorem stepSeq_cons_shape (s : List Event × Option Err)
    (rest : List (List Event × Option Err)) :
    ∃ tl, (stepSeq (s :: rest)).1 = s.1 ++ tl := by
  rcases s with ⟨t, oe⟩
  cases oe
  · exact ⟨(stepSeq rest).1, by rw [stepSeq_cons_none]⟩
  · exact ⟨[], by rw [stepSeq_cons_some]; simp⟩

theorem run_on_asset_trace_shape (fl : List String) (cfg : ExecCfg) (env : Env)
    (a : Asset) (hstore : cfg.has_result_store = true) (hmiss : env.cached = none)
    (hpaths : env.pathsExist = true) :
    ∃ T, (run_on_asset fl cfg env a).1
      = Event.cacheLoad :: Event.assertPaths ::
        ((stepSeq (miss_steps cfg env a
            (set_asset_use_workpath_as_procpath a
              (set_asset_use_path_as_workpath fl a ⟨false, false⟩).1).1
            (set_asset_use_path_as_workpath fl a ⟨false, false⟩).2
            (set_asset_use_workpath_as_procpath a
              (set_asset_use_path_as_workpath fl a ⟨false, false⟩).1).2)).1 ++ T) := by
  unfold run_on_asset
  simp only [hstore, hmiss, hpaths, if_true, Bool.true_eq_false, if_false]
  rcases h1 : set_asset_use_path_as_workpath fl a ⟨false, false⟩ with ⟨flags1, t1⟩
  rcases h2 : set_asset_use_workpath_as_procpath a flags1 with ⟨flags, t2⟩
  rcases hts : stepSeq (miss_steps cfg env a flags t1 t2) with ⟨t, oe⟩
  simp only [h1, h2, hts]
  cases oe with
  | some err => exact ⟨[], by simp⟩
  | none =>
    cases env.readOutcome with
    | error err => exact ⟨[Event.readResult], by simp⟩
    | ok result =>
      rcases stepSeq (cleanup_steps cfg a flags) with ⟨ct, ce⟩
      cases ce with
      | some err =>
        exact ⟨[Event.readResult]
          ++ (Event.cacheSave ::
            (if cfg.save_workfiles then
              [Event.saveWorkfileArtifact true, Event.saveWorkfileArtifact false]
             else [])) ++ ct, by simp⟩
      | none =>
        exact ⟨[Event.readResult]
          ++ (Event.cacheSave ::
            (if cfg.save_workfiles then
              [Event.saveWorkfileArtifact true, Event.saveWorkfileArtifact false]
             else [])) ++ ct, by simp⟩

/-- C9: on the cache-miss path with both decision flags false, the removals
of pre-existing files/pipes at the workfile and procfile target paths for
both streams are all issued before any creation (mkfifo, transcoder write,
or procfile write) begins: all four removals lie in the trace prefix
preceding the first creation event. -/
theorem C9_removals_precede_creations
    (fl : List String) (cfg : ExecCfg) (env : Env) (a : Asset)
    (hstore : cfg.has_result_store = true) (hmiss : env.cached = none)
    (hpaths : env.pathsExist = true)
    (hneed : need_ffmpeg fl a = true)
    (hcb : a.ref_proc_callback_present = true)
    (hovC : hasMethodOverride cfg.optional_dict "_close_workfile_method" = false)
    (hovO : hasMethodOverride cfg.optional_dict "_open_workfile_method" = false)
    (hw1 : a.ref_path ≠ a.ref_workfile_path) (hw2 : a.dis_path ≠ a.dis_workfile_path)
    (hp3 : a.ref_workfile_path ≠ a.ref_procfile_path)
    (hp4 : a.dis_workfile_path ≠ a.dis_procfile_path)
    (hffa : env.ffmpegAvailable = true) (hffk : env.ffmpegOk = true) :
    Event.removeWorkfile true ∈
      (run_on_asset fl cfg env a).1.takeWhile (fun e => !(isCreationEvent e)) ∧
    Event.removeWorkfile false ∈
      (run_on_asset fl cfg env a).1.takeWhile (fun e => !(isCreationEvent e)) ∧
    Event.removeProcfile true ∈
      (run_on_asset fl cfg env a).1.takeWhile (fun e => !(isCreationEvent e)) ∧
    Event.removeProcfile false ∈
      (run_on_asset fl cfg env a).1.takeWhile (fun e => !(isCreationEvent e)) := by
  have hfs1 : set_asset_use_path_as_workpath fl a ⟨false, false⟩
      = (⟨false, false⟩, []) := by
    simp [set_asset_use_path_as_workpath, hneed]
  have hfs2 : set_asset_use_workpath_as_procpath a ⟨false, false⟩
      = (⟨false, false⟩, []) := by
    simp [set_asset_use_workpath_as_procpath, hcb]
  have hclosew : close_workfiles cfg a ⟨false, false⟩
      = ([Event.removeWorkfile true, Event.removeWorkfile false], none) := by
    simp [close_workfiles, close_stream_workfile, stepSeq, hovC, hw1, hw2]
  have hclosep : close_procfiles a ⟨false, false⟩
      = ([Event.removeProcfile true, Event.removeProcfile false], none) := by
    simp [close_procfiles, close_stream_procfile, stepSeq, hp3, hp4]
  obtain ⟨T, hT⟩ := run_on_asset_trace_shape fl cfg env a hstore hmiss hpaths
  rw [hfs1, hfs2] at hT
  have hosw1 : open_stream_workfile cfg env a ⟨false, false⟩ true true
      = ([Event.mkfifoWorkfile true, Event.ffmpegWrite true], none) := by
    simp [open_stream_workfile, hovO, hw1, hffa, hffk]
  have hosw1m : open_stream_workfile cfg env a ⟨false, false⟩ true false
      = ([Event.ffmpegWrite true], none) := by
    simp [open_stream_workfile, hovO, hw1, hffa, hffk]
  have hosw2 : open_stream_workfile cfg env a ⟨false, false⟩ false true
      = ([Event.mkfifoWorkfile false, Event.ffmpegWrite false], none) := by
    simp [open_stream_workfile, hovO, hw2, hffa, hffk]
  have hwt : (wait_for_workfiles env).1 = [Event.pollWorkfiles] := by
    unfold wait_for_workfiles
    split_ifs <;> rfl
  have hms : ∃ T2 hd, (isCreationEvent hd = true) ∧
      (stepSeq (miss_steps cfg env a ⟨false, false⟩ [] [])).1
      = Event.removeWorkfile true :: Event.removeWorkfile false ::
        Event.removeProcfile true :: Event.removeProcfile false ::
        Event.makeParentDirs :: hd :: T2 := by
    unfold miss_steps
    dsimp only
    simp only [show (⟨false, false⟩ : Flags).use_path_as_workpath = false from rfl,
      show (⟨false, false⟩ : Flags).use_workpath_as_procpath = false from rfl,
      Bool.false_eq_true, if_false, hclosew, hclosep]
    rw [stepSeq_cons_none, stepSeq_cons_none, stepSeq_cons_none, stepSeq_cons_none,
      stepSeq_cons_none]
    cases hf : cfg.fifo_mode with
    | true =>
      have hofm : open_workfiles_in_fifo_mode cfg env a ⟨false, false⟩
          = ([Event.mkfifoWorkfile true, Event.ffmpegWrite true,
              Event.mkfifoWorkfile false, Event.ffmpegWrite false,
              Event.pollWorkfiles], (wait_for_workfiles env).2) := by
        unfold open_workfiles_in_fifo_mode
        rw [hosw1, hosw2]
        rcases hw : wait_for_workfiles env with ⟨pt, pe⟩
        have hpt : pt = [Event.pollWorkfiles] := by
          rw [hw] at hwt
          exact hwt
        subst hpt
        simp [hw]
      rw [if_pos rfl]
      rw [hofm]
      obtain ⟨tl, htl⟩ := stepSeq_cons_shape
        ([Event.mkfifoWorkfile true, Event.ffmpegWrite true,
          Event.mkfifoWorkfile false, Event.ffmpegWrite false,
          Event.pollWorkfiles], (wait_for_workfiles env).2) _
      refine ⟨[Event.ffmpegWrite true, Event.mkfifoWorkfile false,
        Event.ffmpegWrite false, Event.pollWorkfiles] ++ tl,
        Event.mkfifoWorkfile true, rfl, ?_⟩
      rw [htl]
      simp
    | false =>
      have hopw : open_workfiles cfg env a ⟨false, false⟩
          = (Event.ffmpegWrite true ::
              (stepSeq [open_stream_workfile cfg env a ⟨false, false⟩ false false]).1,
             (stepSeq [open_stream_workfile cfg env a ⟨false, false⟩ false false]).2) := by
        unfold open_workfiles
        rw [hosw1m, stepSeq_cons_none]
        simp
      rw [if_neg (by simp)]
      rw [hopw]
      obtain ⟨tl, htl⟩ := stepSeq_cons_shape
        (Event.ffmpegWrite true ::
            (stepSeq [open_stream_workfile cfg env a ⟨false, false⟩ false false]).1,
         (stepSeq [open_stream_workfile cfg env a ⟨false, false⟩ false false]).2) _
      refine ⟨(stepSeq [open_stream_workfile cfg env a ⟨false, false⟩ false false]).1
        ++ tl, Event.ffmpegWrite true, rfl, ?_⟩
      rw [htl]
      simp
  obtain ⟨T2, hd, hhd, hms2⟩ := hms
  rw [hms2] at hT
  rw [hT]
  simp only [List.cons_append, List.takeWhile_cons, isCreationEvent, Bool.not_true,
    Bool.not_false]
  simp [hhd]

/-- Witness for C9: `assetProc` (transcode and per-sample callbacks needed)
under the standard fifo configuration issues all four stage removals before
the first creation. -/
theorem C9_witness :
    Event.removeWorkfile true ∈
      (run_on_asset ORDERED_FILTER_LIST cfg0 envBase assetProc).1.takeWhile
        (fun e => !(isCreationEvent e)) ∧
    Event.removeWorkfile false ∈
      (run_on_asset ORDERED_FILTER_LIST cfg0 envBase assetProc).1.takeWhile
        (fun e => !(isCreationEvent e)) ∧
    Event.removeProcfile true ∈
      (run_on_asset ORDERED_FILTER_LIST cfg0 envBase assetProc).1.takeWhile
        (fun e => !(isCreationEvent e)) ∧
    Event.removeProcfile false ∈
      (run_on_asset ORDERED_FILTER_LIST cfg0 envBase assetProc).1.takeWhile
        (fun e => !(isCreationEvent e)) :=
  C9_removals_precede_creations ORDERED_FILTER_LIST cfg0 envBase assetProc
    rfl rfl rfl (by decide) rfl rfl rfl (by decide) (by decide) (by decide)
    (by decide) rfl rfl

theorem tokenAfterFunction_isSome_iff : ∀ toks : List (List Char),
    (tokenAfterFunction toks).isSome = true ↔ hasFnTok toks = true
  | [] => by simp [tokenAfterFunction, hasFnTok]
  | [t] => by
    by_cases ht : t = "function".data <;>
      simp [tokenAfterFunction, hasFnTok, ht]
  | t :: u :: ts => by
    by_cases ht : t = "function".data
    · simp [tokenAfterFunction, hasFnTok, ht]
    · have hstep : tokenAfterFunction (t :: u :: ts) = tokenAfterFunction (u :: ts) := by
        simp [tokenAfterFunction, ht]
      rw [hstep, tokenAfterFunction_isSome_iff (u :: ts)]
      simp [hasFnTok, beq_eq_false_iff_ne.mpr ht]

theorem slugifyCallable_isSome_iff (r : String) :
    (slugifyCallable r.data).isSome = true ↔ hasFunctionNameToken r = true := by
  unfold slugifyCallable hasFunctionNameToken
  cases hdata : r.data with
  | nil => simp
  | cons c rest =>
    dsimp only
    by_cases hcond : c = '<' ∧ (c :: rest).getLast? = some '>'
    · rw [if_pos hcond]
      rw [tokenAfterFunction_isSome_iff]
      simp [hcond.1, hcond.2]
      intro _
      exact hcond.1 ▸ hcond.2
    · rw [if_neg hcond]
      simp only [Option.isSome_none, Bool.false_eq_true, false_iff]
      intro hcontra
      rcases Bool.and_eq_true_iff.mp hcontra with ⟨h1, _⟩
      rcases Bool.and_eq_true_iff.mp h1 with ⟨hc, hl⟩
      exact hcond ⟨beq_iff_eq.mp hc, beq_iff_eq.mp hl⟩

theorem mapM_none_of_mem {α β : Type} {f : α → Option β} :
    ∀ {l : List α} {x : α}, x ∈ l → f x = none → l.mapM f = none := by
  intro l
  induction l with
  | nil => intro x hx; simp at hx
  | cons y ys ih =>
    intro x hx hfx
    rcases List.mem_cons.mp hx with rfl | hx
    · rw [List.mapM_cons, hfx]
      rfl
    · rw [List.mapM_cons]
      cases hfy : f y with
      | none => rfl
      | some b =>
        rw [ih hx hfx]
        rfl

/-- C10: an `optional_dict` containing a callable whose rendering is not of
the form `<... function <name> ...>` (e.g. a bound method rendered as
`<bound method ...>`) makes `executor_id` fail with an assertion error
instead of returning an identifier; a callable's rendering yields a name
exactly when it contains the token `function` followed by a name. -/
theorem C10_callable_rendering_gate :
    (∀ (tv : String) (d : List (String × PyVal)) (k : String) (r : String),
      (k, PyVal.callable r) ∈ d → hasFunctionNameToken r = false →
      executor_id tv (some d) = none) ∧
    (∀ r : String, (slugify (PyVal.callable r)).isSome = true
      ↔ hasFunctionNameToken r = true) := by
  constructor
  · intro tv d k r hmem hshape
    have hsl : slugify (PyVal.callable r) = none := by
      rw [← Option.not_isSome_iff_eq_none]
      intro hs
      rw [show slugify (PyVal.callable r) = slugifyCallable r.data from rfl] at hs
      rw [slugifyCallable_isSome_iff r] at hs
      rw [hs] at hshape
      exact Bool.true_eq_false ▸ hshape
    have hlen : 0 < d.length := List.length_pos.mpr (List.ne_nil_of_mem hmem)
    have hmem2 : (k, PyVal.callable r) ∈ List.insertionSort keyLE d := by
      rw [List.mem_insertionSort]
      exact hmem
    have hnorm : get_normalized_string_from_dict d = none := by
      unfold get_normalized_string_from_dict
      rw [mapM_none_of_mem hmem2 (by rw [hsl]; rfl)]
      rfl
    unfold executor_id
    dsimp only
    rw [if_pos hlen, hnorm]
    rfl
  · intro r
    exact slugifyCallable_isSome_iff r

/-- Witness for C10: a bound-method rendering makes `executor_id` raise,
and a built-in function rendering is accepted. -/
theorem C10_witness :
    executor_id "T_V" (some [("cb", PyVal.callable "<bound method A.b of x>")])
      = none ∧
    ((slugify (PyVal.callable "<built-in function sorted>")).isSome = true
      ↔ hasFunctionNameToken "<built-in function sorted>" = true) :=
  ⟨C10_callable_rendering_gate.1 "T_V" _ "cb" "<bound method A.b of x>"
      (List.mem_singleton.mpr rfl) (by decide),
   C10_callable_rendering_gate.2 "<built-in function sorted>"⟩
